import Mathlib

/-!
Verification of dispy's asyncoro.py (cooperative coroutine runtime with an
asynchronous socket layer).  The Python source is shallowly embedded:

* the synchronous framed-message path (`sync_sendall`, `sync_recvall`,
  `sync_send_msg`, `sync_recv_msg`) is modelled over an explicit byte-chunk
  stream standing for the OS socket delivery;
* the scheduler (`AsynCoro`) is modelled as an explicit state record with
  the `_suspend` / `_resume` / `_throw` / `_terminate_coro` / `_add`
  operations, the timer-drain step and the per-coroutine scheduling step;
* the cooperative condition variable (`CoroCondition`) and the
  `_AsynCoroSocket.__init__` attribute-dict sharing are modelled directly.

Machine integers do not arise (Python ints are unbounded); times are
rationals standing for Python floats (only ordered-field reasoning is
used); fallible code returns `Except`.
-/

set_option maxHeartbeats 1000000

namespace Asyncoro

/-- Bytes of a Python byte string (values below 256 where it matters). -/
abbrev Byte := Nat

/-- Error kinds raised by the embedded code paths: `socket.error` (raised
by sync_recvall on a zero-length chunk, asyncoro.py line 384) and
`AssertionError` (the `assert n > 0` in sync_recv_msg, line 626, and the
asserts of the condition variable). -/
inductive PyErr where
  | sockError
  | assertError
deriving DecidableEq, Repr

/-- One blocking `recv(pending)` call on a stream socket.  OS delivery is
modelled as a list of chunks; a call returns up to `pending` bytes of the
front chunk, buffering any remainder.  An exhausted stream models a remote
close: `recv` then returns the empty byte string. -/
def recv (pending : Nat) : List (List Byte) → List Byte × List (List Byte)
  | [] => ([], [])
  | c :: cs => (c.take pending, if pending < c.length then c.drop pending :: cs else cs)

/-- Loop body of `_AsynCoroSocket.sync_recvall` (asyncoro.py lines 377-389):
`while bufsize: buf = recv(bufsize); if not buf: raise socket.error;
bufsize -= len(buf); result.append(buf)`.  `fuel` bounds the number of
loop iterations; every successful iteration delivers at least one byte, so
`fuel = bufsize` always suffices (see `sync_recvallF_ok`/`sync_recvallF_err`).
Returns the accumulated bytes together with the remaining stream. -/
def sync_recvallF : Nat → Nat → List (List Byte) →
    Option (Except PyErr (List Byte × List (List Byte)))
  | _, 0, cs => some (.ok ([], cs))
  | 0, _ + 1, _ => none
  | fuel + 1, bufsize + 1, cs =>
    match recv (bufsize + 1) cs with
    | (buf, cs1) =>
      if buf.isEmpty then some (.error .sockError)
      else
        match sync_recvallF fuel (bufsize + 1 - buf.length) cs1 with
        | none => none
        | some (.error e) => some (.error e)
        | some (.ok (rest, cs2)) => some (.ok (buf ++ rest, cs2))

/-- `_AsynCoroSocket.sync_recvall` (lines 377-389). -/
def sync_recvall (bufsize : Nat) (cs : List (List Byte)) :
    Except PyErr (List Byte × List (List Byte)) :=
  (sync_recvallF bufsize bufsize cs).getD (.error .sockError)

/-- Python struct.pack of format string greater-than L: big-endian unsigned
32-bit encoding of a length. -/
def pack_gtL (n : Nat) : List Byte :=
  [n / 2 ^ 24 % 256, n / 2 ^ 16 % 256, n / 2 ^ 8 % 256, n % 256]

/-- Python struct.unpack of the same format applied to a 4-byte string. -/
def unpack_gtL : List Byte → Nat
  | [b0, b1, b2, b3] => ((b0 * 256 + b1) * 256 + b2) * 256 + b3
  | _ => 0

/-- Wire emission of `_AsynCoroSocket.sync_sendall` (lines 483-492): the
loop advances a buffer cursor through `data`, calling send repeatedly;
`accepts` is the oracle giving how many bytes the OS accepts per send call
(send sends at most the remaining buffer; on a non-positive return the
cursor stays).  Returns the bytes actually put on the wire, `none` when
the oracle is exhausted before the buffer drains. -/
def sync_sendall_wire : List Byte → List Nat → Option (List Byte)
  | [], _ => some []
  | _ :: _, [] => none
  | d :: ds, a :: accepts =>
    let sent := min a (d :: ds).length
    if 0 < sent then
      match sync_sendall_wire ((d :: ds).drop sent) accepts with
      | none => none
      | some w => some ((d :: ds).take sent ++ w)
    else sync_sendall_wire (d :: ds) accepts

/-- `_AsynCoroSocket.sync_send_msg` (lines 594-597):
`sync_sendall(struct.pack(..., len(data)) + data)`; the value is the wire
image that sendall emits. -/
def sync_send_msg (data : List Byte) (accepts : List Nat) : Option (List Byte) :=
  sync_sendall_wire (pack_gtL data.length ++ data) accepts

/-- `_AsynCoroSocket.sync_recv_msg` (lines 617-631).  `some payload` on
success, `none` for the disconnected sentinel (Python None), `.error` when
sync_recvall raises socket.error or the `assert n > 0` fails. -/
def sync_recv_msg (cs : List (List Byte)) :
    Except PyErr (Option (List Byte) × List (List Byte)) :=
  match sync_recvall 4 cs with
  | .error e => .error e
  | .ok (data, cs1) =>
    if data.length < 4 then .ok (none, cs1)
    else
      let n := unpack_gtL data
      if 0 < n then
        match sync_recvall n cs1 with
        | .error e => .error e
        | .ok (data2, cs2) =>
          if data2.length < n then .ok (none, cs2) else .ok (some data2, cs2)
      else .error .assertError

/-!
Embedding of the scheduler (`class AsynCoro`, asyncoro.py lines 1789-2110).
Python times are floats; they are modelled as rationals.  Python objects
stored in `coro._value` are opaque apart from the `isinstance(retval,
types.GeneratorType)` test, so values are a three-way sum.  The heapq
min-heap `_timeouts` is modelled as a list kept sorted by the Python
tuple order on `(timeout, cid)`: `heappush` is ordered insertion and
`heappop` takes the head, which is the heap's observable behaviour.
-/

/-- Python objects delivered into coroutines: None, an opaque
non-generator object, or a generator object (by token). -/
inductive Val where
  | vnone
  | obj (n : Nat)
  | gen (g : Nat)
deriving DecidableEq, Repr

/-- Exception kinds appearing in the scheduler: GeneratorExit is the
reserved terminating Exit kind (`_terminate_coro`), socket.timeout is
thrown by `_timed_out`, socket.error by the I/O paths, and `other` covers
arbitrary user exception classes. -/
inductive ExcKind where
  | generatorExit
  | sockTimeout
  | sockErrorK
  | other (k : Nat)
deriving DecidableEq, Repr

/-- A staged exception: Python stores the args tuple whose head is the
exception class; the model keeps (kind, payload token). -/
abbrev Exc := ExcKind × Nat

/-- Coroutine states (AsynCoro._Scheduled, _Running, _Suspended). -/
inductive CoroState where
  | scheduled
  | running
  | suspended
deriving DecidableEq, Repr

/-- Per-coroutine record (class Coro, lines 1584-1614): `_state`,
`_value`, `_exception`, `_timeout` (absolute deadline), `_callers`
(stack of (generator, saved value) frames) and `_generator` (token). -/
structure Coro where
  state : CoroState
  value : Val
  excpt : Option Exc
  timeout : Option ℚ
  callers : List (Nat × Val)
  generator : Nat
deriving DecidableEq, Repr

/-- Scheduler state (AsynCoro.__init__, lines 1811-1830): the coroutine
table `_coros` (association list, distinct keys), the `_scheduled` and
`_suspended` id sets (lists up to membership), the `_timeouts` sleep heap
and the fresh-id counter `AsynCoro._coro_id`. -/
structure Sched where
  coros : List (Nat × Coro)
  scheduled : List Nat
  suspended : List Nat
  timeouts : List (ℚ × Nat)
  coro_id : Nat
deriving DecidableEq, Repr

/-- Python set.add. -/
def sadd (x : Nat) (s : List Nat) : List Nat := if x ∈ s then s else x :: s

/-- Python set.discard. -/
def sdiscard (x : Nat) (s : List Nat) : List Nat := s.filter (fun y => y ≠ x)

/-- Dict lookup on an association list. -/
def alookup {β : Type} (k : Nat) : List (Nat × β) → Option β
  | [] => none
  | (k1, v) :: t => if k1 = k then some v else alookup k t

/-- In-place mutation of the entry at a key (Python mutates the Coro
object held by the dict). -/
def aupdate {β : Type} (k : Nat) (f : β → β) (t : List (Nat × β)) : List (Nat × β) :=
  t.map (fun p => if p.1 = k then (p.1, f p.2) else p)

/-- Dict pop of a key. -/
def aerase {β : Type} (k : Nat) (t : List (Nat × β)) : List (Nat × β) :=
  t.filter (fun p => p.1 ≠ k)

/-- heapq.heappush with Python tuple comparison on (deadline, id),
modelled as sorted insertion. -/
def heappush (e : ℚ × Nat) : List (ℚ × Nat) → List (ℚ × Nat)
  | [] => [e]
  | f :: t =>
    if e.1 < f.1 ∨ (e.1 = f.1 ∧ e.2 ≤ f.2) then e :: f :: t else f :: heappush e t

/-- AsynCoro._add (lines 1845-1858): assign the fresh id from the class
counter, insert into `_coros`, set state Scheduled and add to
`_scheduled` (the control-pipe wakeup write has no scheduler-state
effect and is not modelled).  `c` carries the new coroutine's fields as
built by Coro.__init__. -/
def AsynCoro_add (st : Sched) (c : Coro) : Sched :=
  let cid := st.coro_id
  { st with
      coro_id := cid + 1,
      coros := (cid, { c with state := .scheduled }) :: st.coros,
      scheduled := sadd cid st.scheduled }

/-- Validity test for the timeout argument of `_suspend` (lines
1863-1866): None is accepted, a number only when positive.  Non-numeric
Python values cannot be passed in this embedding; they are rejected on
the same line of the source. -/
def validTimeout : Option ℚ → Bool
  | none => true
  | some t => decide (0 < t)

/-- AsynCoro._suspend (lines 1860-1883); `now` is the value of
`time.time()` at the call. -/
def AsynCoro_suspend (now : ℚ) (st : Sched) (cid : Nat) (timeout : Option ℚ) :
    Int × Sched :=
  if validTimeout timeout = false then (-1, st)
  else
    match alookup cid st.coros with
    | none => (-1, st)
    | some coro =>
      if coro.state ≠ .running then (-1, st)
      else
        match timeout with
        | none =>
          (0, { st with
                  scheduled := sdiscard cid st.scheduled,
                  suspended := sadd cid st.suspended,
                  coros := aupdate cid
                    (fun c => { c with state := .suspended, timeout := none }) st.coros })
        | some t =>
          let deadline := now + t
          (0, { st with
                  scheduled := sdiscard cid st.scheduled,
                  suspended := sadd cid st.suspended,
                  coros := aupdate cid
                    (fun c => { c with state := .suspended, timeout := some deadline }) st.coros,
                  timeouts := heappush (deadline, cid) st.timeouts })

/-- AsynCoro._resume (lines 1885-1915). -/
def AsynCoro_resume (st : Sched) (cid : Nat) (update : Val) : Int × Sched :=
  match alookup cid st.coros with
  | none => (-1, st)
  | some coro =>
    if coro.state = .scheduled then
      match coro.excpt with
      | some e =>
        if e.1 ≠ .generatorExit then
          (0, { st with
                  coros := aupdate cid
                    (fun c => { c with excpt := none, value := update }) st.coros })
        else (-1, st)
      | none => (-1, st)
    else
      (0, { st with
              coros := aupdate cid
                (fun c => { c with timeout := none, value := update, state := .scheduled })
                st.coros,
              suspended := sdiscard cid st.suspended,
              scheduled := sadd cid st.scheduled })

/-- AsynCoro._throw (lines 1917-1936); `e` is the staged args tuple. -/
def AsynCoro_throw (st : Sched) (cid : Nat) (e : Exc) : Int × Sched :=
  match alookup cid st.coros with
  | none => (-1, st)
  | some coro =>
    if coro.state = .running then (-1, st)
    else
      (0, { st with
              coros := aupdate cid
                (fun c => { c with timeout := none, excpt := some e, state := .scheduled })
                st.coros,
              suspended :=
                if coro.state = .suspended then sdiscard cid st.suspended else st.suspended,
              scheduled :=
                if coro.state = .suspended then sadd cid st.scheduled else st.scheduled })

/-- AsynCoro._terminate_coro (lines 1938-1959): stage GeneratorExit, clear
the deadline, force state Scheduled, moving a suspended coroutine to the
ready set. -/
def AsynCoro_terminate_coro (st : Sched) (cid : Nat) : Int × Sched :=
  match alookup cid st.coros with
  | none => (-1, st)
  | some coro =>
    (0, { st with
            coros := aupdate cid
              (fun c => { c with excpt := some (.generatorExit, 0), timeout := none,
                                 state := .scheduled }) st.coros,
            suspended :=
              if coro.state = .suspended then sdiscard cid st.suspended else st.suspended,
            scheduled :=
              if coro.state = .suspended then sadd cid st.scheduled else st.scheduled })

/-- Body of one pop of the timer-drain loop (lines 1988-2001): the entry
`(t, cid)` has been popped; a stale entry (owner gone or its stored
deadline differs) or a non-suspended owner is discarded, otherwise the
owner moves from `_suspended` to `_scheduled` in state Scheduled with
value None and deadline cleared. -/
def drainEntry (st : Sched) (t : ℚ) (cid : Nat) : Sched :=
  match alookup cid st.coros with
  | none => st
  | some coro =>
    if coro.timeout ≠ some t then st
    else if coro.state ≠ .suspended then st
    else
      { st with
          coros := aupdate cid
            (fun c => { c with timeout := none, state := .scheduled, value := .vnone })
            st.coros,
          suspended := sdiscard cid st.suspended,
          scheduled := sadd cid st.scheduled }

/-- The timer-drain loop of `_schedule` (lines 1983-2001) over the heap
list: pop while the head deadline is at most `now1` (the loop bound
`_time() + 0.001`). -/
def drainLoop (now1 : ℚ) : List (ℚ × Nat) → Sched → Sched
  | [], st => { st with timeouts := [] }
  | (t, cid) :: rest, st =>
    if t ≤ now1 then drainLoop now1 rest (drainEntry st t cid)
    else { st with timeouts := (t, cid) :: rest }

/-- The timer-drain step with the 1 ms slack applied to `now`. -/
def drainTimeouts (now : ℚ) (st : Sched) : Sched :=
  drainLoop (now + 1 / 1000) st.timeouts st

/-- Expiry test of the drain loop: deadline at most the slack-adjusted
clock. -/
def expiredBy (now1 : ℚ) (e : ℚ × Nat) : Bool := e.1 ≤ now1

/-- The possible endings of one generator step (`send` / `throw` /
`close` at lines 2018-2027): the generator yielded a value (a Python
object, possibly a sub-generator), raised StopIteration, or raised some
other exception. -/
inductive GenResult where
  | ret (v : Val)
  | stopped
  | raised (e : Exc)
deriving DecidableEq, Repr

/-- Scheduler API calls that user code (or a foreign thread) can issue
while a coroutine step is executing. -/
inductive ApiOp where
  | add (c : Coro)
  | suspendOp (now : ℚ) (cid : Nat) (timeout : Option ℚ)
  | resumeOp (cid : Nat) (v : Val)
  | throwOp (cid : Nat) (e : Exc)
  | terminate (cid : Nat)
deriving DecidableEq, Repr

def applyApi (st : Sched) : ApiOp → Sched
  | .add c => AsynCoro_add st c
  | .suspendOp now cid t => (AsynCoro_suspend now st cid t).2
  | .resumeOp cid v => (AsynCoro_resume st cid v).2
  | .throwOp cid e => (AsynCoro_throw st cid e).2
  | .terminate cid => (AsynCoro_terminate_coro st cid).2

/-- The except-branch of the run step (lines 2028-2068).  `exc = none`
models StopIteration (cleared at 2032-2033), `some e` any other raised
exception.  With a non-empty `_callers` stack the top frame is popped and
the coroutine rescheduled; otherwise the coroutine is deleted from the
table and from whichever set its state says it is in. -/
def postExcept (st : Sched) (cid : Nat) (exc : Option Exc) : Sched :=
  match alookup cid st.coros with
  | none => st
  | some coro =>
    match coro.callers.getLast? with
    | some frame =>
      { st with
          coros := aupdate cid
            (fun c => { c with
                excpt := exc,
                value := if exc.isSome then frame.2 else c.value,
                generator := frame.1,
                callers := c.callers.dropLast,
                state := .scheduled }) st.coros }
    | none =>
      { st with
          coros := aerase cid st.coros,
          suspended :=
            if coro.state = .suspended then sdiscard cid st.suspended else st.suspended,
          scheduled :=
            if coro.state = .suspended then st.scheduled else sdiscard cid st.scheduled }

/-- One per-coroutine body of the scheduling loop (lines 2006-2085) for a
snapshot member `cid`.  The generator's own execution is abstracted:
`calls` are the scheduler API calls made while the generator ran, `res`
is how the step ended.  The staged exception is consumed at the start of
the step (2020); mark Running (2014), run, then post-process. -/
def runStep (st : Sched) (cid : Nat) (calls : List ApiOp) (res : GenResult) : Sched :=
  match alookup cid st.coros with
  | none => st
  | some coro =>
    if coro.state ≠ .scheduled then st
    else
      let st1 := { st with
        coros := aupdate cid
          (fun c => { c with state := .running, excpt := none }) st.coros }
      let st2 := calls.foldl applyApi st1
      match res with
      | .ret v =>
        let st3 :=
          match alookup cid st2.coros with
          | none => st2
          | some c2 =>
            if c2.state = .running then
              { st2 with
                  coros := aupdate cid
                    (fun c => { c with state := .scheduled, value := v }) st2.coros }
            else st2
        match v with
        | .gen g =>
          { st3 with
              coros := aupdate cid
                (fun c => { c with
                    callers := c.callers ++ [(c.generator, c.value)],
                    generator := g,
                    value := .vnone }) st3.coros }
        | _ => st3
      | .stopped => postExcept st2 cid none
      | .raised e => postExcept st2 cid (some e)

/-- One transition of the scheduler: an API call, the timer-drain step,
or one coroutine step of the loop body. -/
inductive SchedOp where
  | api (op : ApiOp)
  | drain (now : ℚ)
  | step (cid : Nat) (calls : List ApiOp) (res : GenResult)

def applySched (st : Sched) : SchedOp → Sched
  | .api op => applyApi st op
  | .drain now => drainTimeouts now st
  | .step cid calls res => runStep st cid calls res

/-- The claimed scheduler invariant: the ready (`_scheduled`) and
`_suspended` sets are disjoint and every id in the coroutine table is a
member of exactly one of them. -/
def InvClaim (st : Sched) : Prop :=
  (∀ cid ∈ st.scheduled, cid ∉ st.suspended) ∧
  (∀ p ∈ st.coros,
    (p.1 ∈ st.scheduled ∧ p.1 ∉ st.suspended) ∨
    (p.1 ∈ st.suspended ∧ p.1 ∉ st.scheduled))

/-- Auxiliary well-formedness carried through the induction: every id in
the table or either set is below the fresh-id counter, and table keys are
distinct (Python dict keys; ids come from the monotone counter). -/
def InvAux (st : Sched) : Prop :=
  (∀ p ∈ st.coros, p.1 < st.coro_id) ∧
  (∀ cid ∈ st.scheduled, cid < st.coro_id) ∧
  (∀ cid ∈ st.suspended, cid < st.coro_id) ∧
  (st.coros.map Prod.fst).Nodup

def SchedInv (st : Sched) : Prop := InvClaim st ∧ InvAux st

instance (st : Sched) : Decidable (InvClaim st) := by
  unfold InvClaim; infer_instance

instance (st : Sched) : Decidable (InvAux st) := by
  unfold InvAux; infer_instance

instance (st : Sched) : Decidable (SchedInv st) := by
  unfold SchedInv; infer_instance

/-!
Embedding of the cooperative condition variable (class CoroCondition,
asyncoro.py lines 1725-1787).  Its methods run inside the calling
coroutine `cid` (`self._asyncoro.cur_coro()`); they read and mutate the
condition-variable record and, through `coro.suspend()` /
`wake.resume(None)`, the scheduler state. -/

/-- CoroCondition state: `_waitlist` (FIFO of coroutine ids), `_owner`
and the `_notify` flag. -/
structure CoroCondition where
  waitlist : List Nat
  owner : Option Nat
  notified : Bool
deriving DecidableEq, Repr

/-- CoroCondition.wait (lines 1762-1787) called by coroutine `cid`.
Returns the assert failure when a different coroutine owns the variable,
otherwise the boolean result together with the updated condition variable
and scheduler.  The suspension path calls `coro.suspend()`, that is
`AsynCoro._suspend(cid, None)` (the clock argument is irrelevant for a
None timeout and is passed as 0). -/
def CoroCondition.wait (cv : CoroCondition) (st : Sched) (cid : Nat) :
    Except PyErr (Bool × CoroCondition × Sched) :=
  if cv.owner ≠ none ∧ cv.owner ≠ some cid then .error .assertError
  else if cv.notified then
    .ok (false, { cv with notified := false, owner := some cid }, st)
  else
    .ok (true, { cv with owner := none, waitlist := cv.waitlist ++ [cid] },
        (AsynCoro_suspend 0 st cid none).2)

/-- CoroCondition.notify (lines 1752-1760) called by coroutine `cid`:
asserts ownership, sets the flag, and when the wait queue is non-empty
pops its head and resumes it with None. -/
def CoroCondition.notify (cv : CoroCondition) (st : Sched) (cid : Nat) :
    Except PyErr (CoroCondition × Sched) :=
  if cv.owner ≠ some cid then .error .assertError
  else
    match cv.waitlist with
    | [] => .ok ({ cv with notified := true }, st)
    | w :: rest =>
      .ok ({ cv with notified := true, waitlist := rest },
          (AsynCoro_resume st w .vnone).2)

/-!
Embedding of `_AsynCoroSocket.__init__` (asyncoro.py lines 120-159) for
claim C10.  Python attribute dictionaries are heap cells: an
AsynCoroSocket object is a reference to its `__dict__`.  The branch for a
socket that is already an AsynCoroSocket executes only
`self.__dict__ = sock.__dict__`, aliasing the dict; the other branch
fills a fresh dict and, through `setblocking(False)`, binds the notifier
and registers the socket. -/

/-- Attribute record of an _AsynCoroSocket (the `__dict__` contents set
at lines 136-159; `_rsock` is represented by its file number, the ssl
objects by tokens). -/
structure SockDict where
  fileno : Nat
  keyfile : Option Nat
  certfile : Option Nat
  result : Option (List Byte)
  timeout : ℚ
  timeout_id : Option ℚ
  coro : Option Nat
  task : Option Nat
  blocking : Bool
  hasNotifier : Bool
deriving DecidableEq, Repr

/-- Heap of socket attribute dicts plus the notifier registration table
(file numbers a register call was issued for). -/
structure SockHeap where
  dicts : List (Nat × SockDict)
  nextRef : Nat
  regs : List Nat
deriving DecidableEq, Repr

/-- Constructor argument: a plain OS socket, or an existing
AsynCoroSocket given by the reference to its `__dict__`. -/
inductive SockArg where
  | raw (fileno : Nat)
  | wrapped (ref : Nat)
deriving DecidableEq, Repr

/-- _AsynCoroSocket.__init__ (lines 120-159) with default
keyfile/certfile; returns the reference to the new object's `__dict__`
and the heap afterwards.  For an existing AsynCoroSocket the dict is
aliased and nothing else happens; for a raw socket a fresh dict is
allocated with the fields of lines 136-155 and `setblocking(blocking)`
either leaves the socket unbound (blocking) or binds the notifier and
registers the socket (non-blocking, lines 188-204). -/
def sockInit (h : SockHeap) (arg : SockArg) (blocking : Bool) : Nat × SockHeap :=
  match arg with
  | .wrapped r => (r, h)
  | .raw f =>
    let d : SockDict :=
      { fileno := f, keyfile := none, certfile := none, result := none,
        timeout := 0, timeout_id := none, coro := none, task := none,
        blocking := blocking, hasNotifier := !blocking }
    (h.nextRef,
      { dicts := (h.nextRef, d) :: h.dicts,
        nextRef := h.nextRef + 1,
        regs := if blocking then h.regs else f :: h.regs })

/-- Mutation of a shared attribute through a reference: set `_task`. -/
def setTask (h : SockHeap) (r : Nat) (v : Option Nat) : SockHeap :=
  { h with dicts := aupdate r (fun d => { d with task := v }) h.dicts }

/-- Read of an attribute through a reference. -/
def getTask (h : SockHeap) (r : Nat) : Option (Option Nat) :=
  (alookup r h.dicts).map SockDict.task

/-! Lemmas about the synchronous receive loop. -/

lemma take_ne_nil {c : List Byte} {n : Nat} (hc : c ≠ []) (hn : 0 < n) :
    c.take n ≠ [] := by
  cases c with
  | nil => exact absurd rfl hc
  | cons x xs =>
    cases n with
    | zero => omega
    | succ m => simp [List.take]

lemma join_eq_nil_of_chunks {cs : List (List Byte)} (hc : ∀ c ∈ cs, c ≠ [])
    (hj : cs.join = []) : cs = [] := by
  cases cs with
  | nil => rfl
  | cons c cs =>
    exfalso
    have hcne : c ≠ [] := hc c (by simp)
    have : c ++ cs.join = [] := hj
    exact hcne (List.append_eq_nil.mp this).1

lemma sync_recvallF_ok : ∀ (fuel n : Nat) (cs : List (List Byte)),
    n ≤ fuel → (∀ c ∈ cs, c ≠ []) → n ≤ cs.join.length →
    ∃ cs', sync_recvallF fuel n cs = some (.ok ((cs.join).take n, cs')) ∧
      (∀ c ∈ cs', c ≠ []) ∧ cs'.join = cs.join.drop n := by
  intro fuel
  induction fuel with
  | zero =>
    intro n cs hfuel hc hlen
    have hn : n = 0 := Nat.le_zero.mp hfuel
    subst hn
    exact ⟨cs, rfl, hc, by simp⟩
  | succ fuel ih =>
    intro n cs hfuel hc hlen
    match n with
    | 0 => exact ⟨cs, rfl, hc, by simp⟩
    | m + 1 =>
      match cs with
      | [] => simp at hlen
      | c :: cs =>
        have hcne : c ≠ [] := hc c (by simp)
        have hbuf : c.take (m + 1) ≠ [] := take_ne_nil hcne (Nat.succ_pos m)
        set k := (c.take (m + 1)).length with hk
        have hk1 : 1 ≤ k := by
          rw [hk]
          cases h : c.take (m + 1) with
          | nil => exact absurd h hbuf
          | cons y ys => simp
        have hkmin : k = min (m + 1) c.length := by rw [hk, List.length_take]
        have hkle : k ≤ m + 1 := by omega
        have hklec : k ≤ c.length := by omega
        -- the stream after the first recv
        set cs1 := if m + 1 < c.length then c.drop (m + 1) :: cs else cs with hcs1
        have hchunks1 : ∀ d ∈ cs1, d ≠ [] := by
          rw [hcs1]
          split
          · intro d hd
            rcases List.mem_cons.mp hd with h | h
            · subst h
              intro hdrop
              have := List.drop_eq_nil_iff_le.mp hdrop
              omega
            · exact hc d (List.mem_cons_of_mem c h)
          · intro d hd; exact hc d (List.mem_cons_of_mem c hd)
        have hjoin1 : cs1.join = ((c :: cs).join).drop k := by
          rw [hcs1]
          split <;> rename_i hsplit
          · have hkm : k = m + 1 := by omega
            rw [hkm]
            simp only [List.join_cons]
            rw [List.drop_append_eq_append_drop]
            have : m + 1 - c.length = 0 := by omega
            rw [this]
            simp
          · have hkm : k = c.length := by omega
            rw [hkm]
            simp only [List.join_cons]
            rw [List.drop_append_eq_append_drop]
            simp
        have hlen1 : m + 1 - k ≤ cs1.join.length := by
          rw [hjoin1, List.length_drop]
          simp only [List.join_cons, List.length_append] at hlen ⊢
          omega
        obtain ⟨cs', hrec, hchunks', hjoin'⟩ :=
          ih (m + 1 - k) cs1 (by omega) hchunks1 hlen1
        refine ⟨cs', ?_, hchunks', ?_⟩
        · show sync_recvallF (fuel + 1) (m + 1) (c :: cs) = _
          have hbufeq : c.take (m + 1) = ((c :: cs).join).take k := by
            simp only [List.join_cons]
            rw [List.take_append_eq_append_take]
            have : k - c.length = 0 := by omega
            rw [this]
            simp only [List.take_zero, List.append_nil]
            rcases Nat.lt_or_ge (m + 1) c.length with h | h
            · have : k = m + 1 := by omega
              rw [this]
            · have hkc : k = c.length := by omega
              rw [hkc, List.take_length, List.take_of_length_le h]
          have hout : c.take (m + 1) ++ (cs1.join).take (m + 1 - k) =
              ((c :: cs).join).take (m + 1) := by
            rw [hbufeq, hjoin1, ← List.take_add]
            congr 1
            omega
          rw [sync_recvallF]
          simp only [recv]
          rw [if_neg (by simpa using hbuf)]
          rw [← hcs1, ← hk, hrec]
          dsimp only
          rw [hout]
        · rw [hjoin', hjoin1, List.drop_drop]
          congr 1
          omega

lemma sync_recvallF_err : ∀ (fuel n : Nat) (cs : List (List Byte)),
    n ≤ fuel → (∀ c ∈ cs, c ≠ []) → cs.join.length < n →
    sync_recvallF fuel n cs = some (.error .sockError) := by
  intro fuel
  induction fuel with
  | zero =>
    intro n cs hfuel hc hlen
    omega
  | succ fuel ih =>
    intro n cs hfuel hc hlen
    match n with
    | 0 => omega
    | m + 1 =>
      match cs with
      | [] =>
        rw [sync_recvallF]
        simp [recv]
      | c :: cs =>
        have hcne : c ≠ [] := hc c (by simp)
        have hbuf : c.take (m + 1) ≠ [] := take_ne_nil hcne (Nat.succ_pos m)
        set k := (c.take (m + 1)).length with hk
        have hk1 : 1 ≤ k := by
          rw [hk]
          cases h : c.take (m + 1) with
          | nil => exact absurd h hbuf
          | cons y ys => simp
        have hkmin : k = min (m + 1) c.length := by rw [hk, List.length_take]
        have hklec : k ≤ c.length := by omega
        set cs1 := if m + 1 < c.length then c.drop (m + 1) :: cs else cs with hcs1
        have hchunks1 : ∀ d ∈ cs1, d ≠ [] := by
          rw [hcs1]
          split
          · intro d hd
            rcases List.mem_cons.mp hd with h | h
            · subst h
              intro hdrop
              have := List.drop_eq_nil_iff_le.mp hdrop
              omega
            · exact hc d (List.mem_cons_of_mem c h)
          · intro d hd; exact hc d (List.mem_cons_of_mem c hd)
        have hjoin1 : cs1.join = ((c :: cs).join).drop k := by
          rw [hcs1]
          split <;> rename_i hsplit
          · have hkm : k = m + 1 := by omega
            rw [hkm]
            simp only [List.join_cons]
            rw [List.drop_append_eq_append_drop]
            have : m + 1 - c.length = 0 := by omega
            rw [this]
            simp
          · have hkm : k = c.length := by omega
            rw [hkm]
            simp only [List.join_cons]
            rw [List.drop_append_eq_append_drop]
            simp
        have hclen : c.length ≤ (c :: cs).join.length := by
          simp only [List.join_cons, List.length_append]
          omega
        have hlen1 : cs1.join.length < m + 1 - k := by
          rw [hjoin1, List.length_drop]
          omega
        have hrec := ih (m + 1 - k) cs1 (by omega) hchunks1 hlen1
        show sync_recvallF (fuel + 1) (m + 1) (c :: cs) = _
        rw [sync_recvallF]
        simp only [recv]
        rw [if_neg (by simpa using hbuf)]
        rw [← hcs1, ← hk, hrec]

lemma sync_recvall_ok (n : Nat) (cs : List (List Byte))
    (hc : ∀ c ∈ cs, c ≠ []) (hlen : n ≤ cs.join.length) :
    ∃ cs', sync_recvall n cs = .ok ((cs.join).take n, cs') ∧
      (∀ c ∈ cs', c ≠ []) ∧ cs'.join = cs.join.drop n := by
  obtain ⟨cs', h, hchunks, hjoin⟩ := sync_recvallF_ok n n cs le_rfl hc hlen
  exact ⟨cs', by rw [sync_recvall, h]; rfl, hchunks, hjoin⟩

lemma sync_recvall_err (n : Nat) (cs : List (List Byte))
    (hc : ∀ c ∈ cs, c ≠ []) (hlen : cs.join.length < n) :
    sync_recvall n cs = .error .sockError := by
  rw [sync_recvall, sync_recvallF_err n n cs le_rfl hc hlen]
  rfl

lemma sync_sendall_wire_eq : ∀ (accepts : List Nat) (d w : List Byte),
    sync_sendall_wire d accepts = some w → w = d := by
  intro accepts
  induction accepts with
  | nil =>
    intro d w h
    cases d with
    | nil => simpa [sync_sendall_wire] using h.symm
    | cons x xs => simp [sync_sendall_wire] at h
  | cons a accepts ih =>
    intro d w h
    cases d with
    | nil => simpa [sync_sendall_wire] using h.symm
    | cons x xs =>
      rw [sync_sendall_wire] at h
      by_cases hs : 0 < min a (x :: xs).length
      · rw [if_pos hs] at h
        cases hrec : sync_sendall_wire ((x :: xs).drop (min a (x :: xs).length)) accepts with
        | none => rw [hrec] at h; exact absurd h (by simp)
        | some w' =>
          rw [hrec] at h
          have hw' := ih _ _ hrec
          have : (x :: xs).take (min a (x :: xs).length) ++ w' = w := by
            simpa using h
          rw [← this, hw', List.take_append_drop]
      · rw [if_neg hs] at h
        exact ih _ _ h

lemma unpack_pack (n : Nat) (h : n < 2 ^ 32) : unpack_gtL (pack_gtL n) = n := by
  simp only [pack_gtL, unpack_gtL]
  omega

/-- C1: for every byte string s with 1 ≤ |s| ≤ 2^23, the wire image that
sync_send_msg emits is exactly the 4-byte big-endian unsigned length
header holding |s| followed by the bytes of s, and sync_recv_msg applied
to that wire image returns s (with the stream fully consumed). -/
theorem framing_round_trip (s : List Byte) (accepts : List Nat) (wire : List Byte)
    (h1 : 1 ≤ s.length) (h2 : s.length ≤ 2 ^ 23)
    (hw : sync_send_msg s accepts = some wire) :
    wire = pack_gtL s.length ++ s ∧
    (pack_gtL s.length).length = 4 ∧
    unpack_gtL (pack_gtL s.length) = s.length ∧
    sync_recv_msg [wire] = .ok (some s, []) := by
  have hwire : wire = pack_gtL s.length ++ s := sync_sendall_wire_eq accepts _ wire hw
  subst hwire
  have hup : unpack_gtL (pack_gtL s.length) = s.length :=
    unpack_pack _ (lt_of_le_of_lt h2 (by norm_num))
  refine ⟨rfl, rfl, hup, ?_⟩
  set w := pack_gtL s.length ++ s with hwdef
  have hchunks : ∀ c ∈ [w], c ≠ [] := by
    intro c hc
    simp only [List.mem_singleton] at hc
    subst hc
    rw [hwdef]
    intro hnil
    have := congrArg List.length hnil
    simp [pack_gtL] at this
  have hjoin : ([w] : List (List Byte)).join = w := by simp
  have hwlen : w.length = 4 + s.length := by
    rw [hwdef, List.length_append]
    rfl
  obtain ⟨cs1, hr1, hc1, hj1⟩ := sync_recvall_ok 4 [w] hchunks (by rw [hjoin, hwlen]; omega)
  rw [hjoin] at hr1 hj1
  have htake4 : w.take 4 = pack_gtL s.length := by
    rw [hwdef]
    have h4 : (4 : Nat) = (pack_gtL s.length).length := rfl
    rw [h4, List.take_left]
  have hdrop4 : w.drop 4 = s := by
    rw [hwdef]
    have h4 : (4 : Nat) = (pack_gtL s.length).length := rfl
    rw [h4, List.drop_left]
  rw [htake4] at hr1
  rw [hdrop4] at hj1
  obtain ⟨cs2, hr2, hc2, hj2⟩ := sync_recvall_ok s.length cs1 hc1 (by rw [hj1])
  rw [hj1, List.take_length] at hr2
  rw [hj1, List.drop_length] at hj2
  have hcs2 : cs2 = [] := join_eq_nil_of_chunks hc2 hj2
  subst hcs2
  unfold sync_recv_msg
  rw [hr1]
  dsimp only
  rw [if_neg (by simp [pack_gtL] : ¬ (pack_gtL s.length).length < 4)]
  simp only [hup]
  rw [if_pos (by omega : 0 < s.length), hr2]
  dsimp only
  rw [if_neg (by omega : ¬ s.length < s.length)]

/-- Witness for framing_round_trip at the payload [65] with a send oracle
accepting 5 bytes. -/
theorem framing_round_trip_witness :
    sync_send_msg [65] [5] = some [0, 0, 0, 1, 65] ∧
    sync_recv_msg [[0, 0, 0, 1, 65]] = .ok (some [65], []) :=
  ⟨rfl, (framing_round_trip [65] [5] [0, 0, 0, 1, 65] (by decide) (by decide) rfl).2.2.2⟩

/-- C2 evidence (code bug): when the peer closes before delivering all
bytes of the declared payload (here a header declaring 5 bytes followed
by a close) or of the header itself (here a 2-byte-then-close stream),
sync_recv_msg propagates the socket.error raised by sync_recvall instead
of returning the disconnected sentinel None; the short-read check at
lines 622/628 is unreachable because sync_recvall never returns fewer
bytes than requested. -/
theorem framed_disconnect_raises :
    sync_recv_msg [[0, 0, 0, 5]] = .error .sockError ∧
    sync_recv_msg [[0, 0]] = .error .sockError :=
  ⟨rfl, rfl⟩

/-- C6: for every n > 0 and every delivery of non-empty chunks, recvall(n)
returns exactly the first n bytes of the in-order chunk stream (length
exactly n, leaving the rest buffered), and when the stream is exhausted
(a zero-length chunk is read) before n bytes accumulate it raises
socket.error rather than returning fewer than n bytes. -/
theorem recvall_exact_or_error (n : Nat) (cs : List (List Byte))
    (_hn : 0 < n) (hc : ∀ c ∈ cs, c ≠ []) :
    (n ≤ cs.join.length →
      ∃ cs', sync_recvall n cs = .ok ((cs.join).take n, cs') ∧
        ((cs.join).take n).length = n ∧ cs'.join = cs.join.drop n) ∧
    (cs.join.length < n → sync_recvall n cs = .error .sockError) := by
  constructor
  · intro hlen
    obtain ⟨cs', h, _, hj⟩ := sync_recvall_ok n cs hc hlen
    exact ⟨cs', h, by rw [List.length_take]; omega, hj⟩
  · intro hlen
    exact sync_recvall_err n cs hc hlen

/-- Witness for recvall_exact_or_error: three bytes delivered as chunks
[1,2] and [3] are returned in order, and a request for five bytes on the
same stream raises. -/
theorem recvall_exact_or_error_witness :
    (∃ cs', sync_recvall 3 [[1, 2], [3]] = .ok (([[1, 2], [3]] : List (List Byte)).join.take 3, cs') ∧
      (([[1, 2], [3]] : List (List Byte)).join.take 3).length = 3 ∧
      cs'.join = ([[1, 2], [3]] : List (List Byte)).join.drop 3) ∧
    sync_recvall 5 [[1, 2], [3]] = .error .sockError :=
  ⟨(recvall_exact_or_error 3 [[1, 2], [3]] (by decide) (by decide)).1 (by decide),
   (recvall_exact_or_error 5 [[1, 2], [3]] (by decide) (by decide)).2 (by decide)⟩

/-! Theorems about the scheduler operations. -/

/-- C3: resume of a Scheduled coroutine carrying a pending exception whose
kind is not GeneratorExit succeeds (returns 0), cancels the pending
exception and stages v as the value delivered at the coroutine's next
step, leaving the sets and the coroutine's state untouched; resume of a
Scheduled coroutine with no pending exception, or with a pending
GeneratorExit, is rejected (returns -1) with the scheduler state
unchanged. -/
theorem resume_cancels_exception (st : Sched) (cid : Nat) (coro : Coro) (v : Val)
    (hl : alookup cid st.coros = some coro) (hs : coro.state = .scheduled) :
    (∀ e, coro.excpt = some e → e.1 ≠ .generatorExit →
      AsynCoro_resume st cid v =
        (0, { st with coros := aupdate cid (fun c => { c with excpt := none, value := v }) st.coros })) ∧
    ((coro.excpt = none ∨ (∃ e, coro.excpt = some e ∧ e.1 = .generatorExit)) →
      AsynCoro_resume st cid v = (-1, st)) := by
  constructor
  · intro e he hne
    unfold AsynCoro_resume
    rw [hl]
    dsimp only
    rw [if_pos hs, he]
    dsimp only
    rw [if_pos hne]
  · intro h
    unfold AsynCoro_resume
    rw [hl]
    dsimp only
    rw [if_pos hs]
    rcases h with h | ⟨e, he, hexit⟩
    · rw [h]
    · rw [he]
      dsimp only
      rw [if_neg (by simp [hexit])]

/-- Witness for resume_cancels_exception: a single Scheduled coroutine
with a pending socket.timeout is resumed with the object 7 (success
branch), and the same coroutine without a pending exception is rejected
(rejection branch). -/
theorem resume_cancels_exception_witness :
    AsynCoro_resume
      { coros := [(1, { state := .scheduled, value := .vnone,
                        excpt := some (.sockTimeout, 0), timeout := none,
                        callers := [], generator := 0 })],
        scheduled := [1], suspended := [], timeouts := [], coro_id := 2 } 1 (.obj 7) =
      (0, { coros := [(1, { state := .scheduled, value := .obj 7,
                            excpt := none, timeout := none,
                            callers := [], generator := 0 })],
            scheduled := [1], suspended := [], timeouts := [], coro_id := 2 }) ∧
    AsynCoro_resume
      { coros := [(1, { state := .scheduled, value := .vnone,
                        excpt := none, timeout := none,
                        callers := [], generator := 0 })],
        scheduled := [1], suspended := [], timeouts := [], coro_id := 2 } 1 (.obj 7) =
      (-1, { coros := [(1, { state := .scheduled, value := .vnone,
                             excpt := none, timeout := none,
                             callers := [], generator := 0 })],
             scheduled := [1], suspended := [], timeouts := [], coro_id := 2 }) := by
  constructor
  · have h := (resume_cancels_exception
      { coros := [(1, { state := .scheduled, value := .vnone,
                        excpt := some (.sockTimeout, 0), timeout := none,
                        callers := [], generator := 0 })],
        scheduled := [1], suspended := [], timeouts := [], coro_id := 2 } 1
      { state := .scheduled, value := .vnone, excpt := some (.sockTimeout, 0),
        timeout := none, callers := [], generator := 0 } (.obj 7) rfl rfl).1
      ((ExcKind.sockTimeout, 0) : Exc) rfl (by decide)
    rw [h]
    rfl
  · exact (resume_cancels_exception
      { coros := [(1, { state := .scheduled, value := .vnone,
                        excpt := none, timeout := none,
                        callers := [], generator := 0 })],
        scheduled := [1], suspended := [], timeouts := [], coro_id := 2 } 1
      { state := .scheduled, value := .vnone, excpt := none,
        timeout := none, callers := [], generator := 0 } (.obj 7) rfl rfl).2
      (Or.inl rfl)

/-- C4: suspend of a Running coroutine with a None timeout succeeds,
moves the id from the ready set to the suspended set in state Suspended
with no deadline and an untouched timer heap; with a positive timeout it
additionally sets the deadline to now + timeout and pushes the
(deadline, id) timer-heap entry; a non-positive timeout, or a coroutine
not in state Running, is rejected (returns -1) with the scheduler state
unchanged. -/
theorem suspend_spec (now : ℚ) (st : Sched) (cid : Nat) (coro : Coro)
    (hl : alookup cid st.coros = some coro) :
    (coro.state = .running →
      AsynCoro_suspend now st cid none =
        (0, { st with
                scheduled := sdiscard cid st.scheduled,
                suspended := sadd cid st.suspended,
                coros := aupdate cid (fun c => { c with state := .suspended, timeout := none }) st.coros }) ∧
      (∀ t : ℚ, 0 < t →
        AsynCoro_suspend now st cid (some t) =
          (0, { st with
                  scheduled := sdiscard cid st.scheduled,
                  suspended := sadd cid st.suspended,
                  coros := aupdate cid (fun c => { c with state := .suspended, timeout := some (now + t) }) st.coros,
                  timeouts := heappush (now + t, cid) st.timeouts }))) ∧
    (∀ t : ℚ, t ≤ 0 → AsynCoro_suspend now st cid (some t) = (-1, st)) ∧
    (coro.state ≠ .running →
      ∀ topt : Option ℚ, AsynCoro_suspend now st cid topt = (-1, st)) := by
  refine ⟨fun hrun => ⟨?_, fun t ht => ?_⟩, fun t ht => ?_, fun hnrun topt => ?_⟩
  · unfold AsynCoro_suspend
    rw [if_neg (by simp [validTimeout])]
    rw [hl]
    dsimp only
    rw [if_neg (by simp [hrun])]
  · unfold AsynCoro_suspend
    rw [if_neg (by simp [validTimeout, ht])]
    rw [hl]
    dsimp only
    rw [if_neg (by simp [hrun])]
  · unfold AsynCoro_suspend
    rw [if_pos (by simp [validTimeout]; linarith)]
  · unfold AsynCoro_suspend
    by_cases hv : validTimeout topt = false
    · rw [if_pos hv]
    · rw [if_neg hv, hl]
      dsimp only
      rw [if_pos hnrun]

/-- Witness for suspend_spec: a Running coroutine suspended with timeout
2 at clock 10 gets deadline 12 and a heap entry; timeout 0 is rejected. -/
theorem suspend_spec_witness :
    AsynCoro_suspend 10
      { coros := [(1, { state := .running, value := .vnone, excpt := none,
                        timeout := none, callers := [], generator := 0 })],
        scheduled := [1], suspended := [], timeouts := [], coro_id := 2 } 1 (some 2) =
      (0, { coros := [(1, { state := .suspended, value := .vnone, excpt := none,
                            timeout := some 12, callers := [], generator := 0 })],
            scheduled := [], suspended := [1], timeouts := [(12, 1)], coro_id := 2 }) ∧
    AsynCoro_suspend 10
      { coros := [(1, { state := .running, value := .vnone, excpt := none,
                        timeout := none, callers := [], generator := 0 })],
        scheduled := [1], suspended := [], timeouts := [], coro_id := 2 } 1 (some 0) =
      (-1, { coros := [(1, { state := .running, value := .vnone, excpt := none,
                             timeout := none, callers := [], generator := 0 })],
             scheduled := [1], suspended := [], timeouts := [], coro_id := 2 }) := by
  constructor
  · have h := ((suspend_spec 10
      { coros := [(1, { state := .running, value := .vnone, excpt := none,
                        timeout := none, callers := [], generator := 0 })],
        scheduled := [1], suspended := [], timeouts := [], coro_id := 2 } 1
      { state := .running, value := .vnone, excpt := none,
        timeout := none, callers := [], generator := 0 } rfl).1 rfl).2 2 (by norm_num)
    rw [h]
    norm_num [sdiscard, sadd, aupdate, heappush]
  · exact ((suspend_spec 10
      { coros := [(1, { state := .running, value := .vnone, excpt := none,
                        timeout := none, callers := [], generator := 0 })],
        scheduled := [1], suspended := [], timeouts := [], coro_id := 2 } 1
      { state := .running, value := .vnone, excpt := none,
        timeout := none, callers := [], generator := 0 } rfl).2).1 0 le_rfl

/-- C5: throw on an existing Scheduled coroutine succeeds (returns 0),
stores (kind, payload) as its pending exception, clears its deadline and
forces state Scheduled with both sets untouched; on a Suspended coroutine
it additionally moves the id from the suspended set to the ready set; on
a Running coroutine it is rejected (returns -1) with no state change. -/
theorem throw_spec (st : Sched) (cid : Nat) (coro : Coro) (e : Exc)
    (hl : alookup cid st.coros = some coro) :
    (coro.state = .scheduled →
      AsynCoro_throw st cid e =
        (0, { st with coros := aupdate cid (fun c => { c with timeout := none, excpt := some e, state := .scheduled }) st.coros })) ∧
    (coro.state = .suspended →
      AsynCoro_throw st cid e =
        (0, { st with
                coros := aupdate cid (fun c => { c with timeout := none, excpt := some e, state := .scheduled }) st.coros,
                suspended := sdiscard cid st.suspended,
                scheduled := sadd cid st.scheduled })) ∧
    (coro.state = .running → AsynCoro_throw st cid e = (-1, st)) := by
  refine ⟨fun hs => ?_, fun hs => ?_, fun hs => ?_⟩
  · unfold AsynCoro_throw
    rw [hl]
    dsimp only
    rw [if_neg (by simp [hs]), if_neg (by simp [hs]), if_neg (by simp [hs])]
  · unfold AsynCoro_throw
    rw [hl]
    dsimp only
    rw [if_neg (by simp [hs]), if_pos hs, if_pos hs]
  · unfold AsynCoro_throw
    rw [hl]
    dsimp only
    rw [if_pos hs]

/-- Witness for throw_spec: throwing socket.timeout into a Suspended
coroutine with a deadline moves it to the ready set, stages the
exception and clears the deadline; throwing into a Running coroutine is
rejected. -/
theorem throw_spec_witness :
    AsynCoro_throw
      { coros := [(1, { state := .suspended, value := .vnone, excpt := none,
                        timeout := some 5, callers := [], generator := 0 })],
        scheduled := [], suspended := [1], timeouts := [(5, 1)], coro_id := 2 } 1
      (.sockTimeout, 3) =
      (0, { coros := [(1, { state := .scheduled, value := .vnone,
                            excpt := some (.sockTimeout, 3), timeout := none,
                            callers := [], generator := 0 })],
            scheduled := [1], suspended := [], timeouts := [(5, 1)], coro_id := 2 }) ∧
    AsynCoro_throw
      { coros := [(1, { state := .running, value := .vnone, excpt := none,
                        timeout := none, callers := [], generator := 0 })],
        scheduled := [1], suspended := [], timeouts := [], coro_id := 2 } 1
      (.sockTimeout, 3) =
      (-1, { coros := [(1, { state := .running, value := .vnone, excpt := none,
                             timeout := none, callers := [], generator := 0 })],
             scheduled := [1], suspended := [], timeouts := [], coro_id := 2 }) := by
  constructor
  · have h := ((throw_spec
      { coros := [(1, { state := .suspended, value := .vnone, excpt := none,
                        timeout := some 5, callers := [], generator := 0 })],
        scheduled := [], suspended := [1], timeouts := [(5, 1)], coro_id := 2 } 1
      { state := .suspended, value := .vnone, excpt := none,
        timeout := some 5, callers := [], generator := 0 } (.sockTimeout, 3) rfl).2).1 rfl
    rw [h]
    norm_num [sdiscard, sadd, aupdate]
  · exact ((throw_spec
      { coros := [(1, { state := .running, value := .vnone, excpt := none,
                        timeout := none, callers := [], generator := 0 })],
        scheduled := [1], suspended := [], timeouts := [], coro_id := 2 } 1
      { state := .running, value := .vnone, excpt := none,
        timeout := none, callers := [], generator := 0 } (.sockTimeout, 3) rfl).2).2 rfl

/-! Timer-drain lemmas. -/

lemma drainLoop_eq (now1 : ℚ) : ∀ (l : List (ℚ × Nat)) (st : Sched),
    drainLoop now1 l st =
      { (l.takeWhile (expiredBy now1)).foldl (fun s e => drainEntry s e.1 e.2) st with
        timeouts := l.dropWhile (expiredBy now1) } := by
  intro l
  induction l with
  | nil => intro st; rfl
  | cons e rest ih =>
    intro st
    obtain ⟨t, cid⟩ := e
    by_cases h : t ≤ now1
    · have hexp : expiredBy now1 (t, cid) = true := by simp [expiredBy, h]
      rw [drainLoop, if_pos h, ih, List.takeWhile_cons, List.dropWhile_cons, hexp]
      simp
    · have hexp : expiredBy now1 (t, cid) = false := by simp [expiredBy, h]
      rw [drainLoop, if_neg h, List.takeWhile_cons, List.dropWhile_cons, hexp]
      simp

lemma dropWhile_eq_filter_of_sorted (now1 : ℚ) :
    ∀ l : List (ℚ × Nat), l.Pairwise (fun a b => a.1 ≤ b.1) →
    l.dropWhile (expiredBy now1) = l.filter (fun e => !expiredBy now1 e) := by
  intro l
  induction l with
  | nil => intro _; rfl
  | cons e rest ih =>
    intro hp
    rw [List.pairwise_cons] at hp
    by_cases h : e.1 ≤ now1
    · have hexp : expiredBy now1 e = true := by simp [expiredBy, h]
      rw [List.dropWhile_cons, List.filter_cons, hexp]
      simp only [if_pos rfl, Bool.not_true, Bool.false_eq_true,
        if_neg (by simp : ¬False)]
      exact ih hp.2
    · have hexp : expiredBy now1 e = false := by simp [expiredBy, h]
      rw [List.dropWhile_cons, List.filter_cons, hexp]
      simp only [Bool.false_eq_true, if_neg (by simp : ¬False), Bool.not_false,
        if_pos trivial]
      congr 1
      have : ∀ x ∈ rest, (!expiredBy now1 x) = true := by
        intro x hx
        have := hp.1 x hx
        simp only [expiredBy, Bool.not_eq_true', decide_eq_false_iff_not]
        intro hc
        exact h (le_trans this hc)
      exact (List.filter_eq_self.mpr this).symm

/-- C7: in the timer-drain step with clock `now`, exactly the heap
entries with deadline at most now + 1 ms are popped (the remaining heap
is the unexpired suffix, so no later entry is removed), the state is the
fold of the per-entry body over the expired prefix, and the per-entry
body discards a stale entry (owner gone, or stored deadline differing
from the heap deadline) with no effect while a fresh entry whose owner is
Suspended moves the owner from the suspended set to the ready set in
state Scheduled with value None and deadline cleared. -/
theorem drain_expired_timeouts (now : ℚ) (st : Sched)
    (hsorted : st.timeouts.Pairwise (fun a b => a.1 ≤ b.1)) :
    (drainTimeouts now st).timeouts =
      st.timeouts.filter (fun e => !expiredBy (now + 1 / 1000) e) ∧
    drainTimeouts now st =
      { (st.timeouts.takeWhile (expiredBy (now + 1 / 1000))).foldl
          (fun s e => drainEntry s e.1 e.2) st with
        timeouts := st.timeouts.dropWhile (expiredBy (now + 1 / 1000)) } ∧
    (∀ (t : ℚ) (cid : Nat) (s : Sched), alookup cid s.coros = none →
      drainEntry s t cid = s) ∧
    (∀ (t : ℚ) (cid : Nat) (s : Sched) (c : Coro), alookup cid s.coros = some c →
      c.timeout ≠ some t → drainEntry s t cid = s) ∧
    (∀ (t : ℚ) (cid : Nat) (s : Sched) (c : Coro), alookup cid s.coros = some c →
      c.timeout = some t → c.state = .suspended →
      drainEntry s t cid =
        { s with
            coros := aupdate cid (fun x => { x with timeout := none, state := .scheduled, value := .vnone }) s.coros,
            suspended := sdiscard cid s.suspended,
            scheduled := sadd cid s.scheduled }) := by
  refine ⟨?_, ?_, ?_, ?_, ?_⟩
  · rw [drainTimeouts, drainLoop_eq, ← dropWhile_eq_filter_of_sorted _ _ hsorted]
  · rw [drainTimeouts, drainLoop_eq]
  · intro t cid s hnone
    unfold drainEntry
    rw [hnone]
  · intro t cid s c hl hne
    unfold drainEntry
    rw [hl]
    dsimp only
    rw [if_pos hne]
  · intro t cid s c hl hto hst
    unfold drainEntry
    rw [hl]
    dsimp only
    rw [if_neg (by simp [hto]), if_neg (by simp [hst])]

/-- Witness for drain_expired_timeouts: with clock 2, the entry (1, 1) is
popped and coroutine 1 (Suspended, deadline 1) moves to the ready set,
while the entry (100, 2) stays. -/
theorem drain_expired_timeouts_witness :
    (drainTimeouts 2
      { coros := [(1, { state := .suspended, value := .obj 3, excpt := none,
                        timeout := some 1, callers := [], generator := 0 }),
                  (2, { state := .suspended, value := .vnone, excpt := none,
                        timeout := some 100, callers := [], generator := 0 })],
        scheduled := [], suspended := [1, 2], timeouts := [(1, 1), (100, 2)],
        coro_id := 3 }).timeouts = [(100, 2)] ∧
    drainTimeouts 2
      { coros := [(1, { state := .suspended, value := .obj 3, excpt := none,
                        timeout := some 1, callers := [], generator := 0 }),
                  (2, { state := .suspended, value := .vnone, excpt := none,
                        timeout := some 100, callers := [], generator := 0 })],
        scheduled := [], suspended := [1, 2], timeouts := [(1, 1), (100, 2)],
        coro_id := 3 } =
      { coros := [(1, { state := .scheduled, value := .vnone, excpt := none,
                        timeout := none, callers := [], generator := 0 }),
                  (2, { state := .suspended, value := .vnone, excpt := none,
                        timeout := some 100, callers := [], generator := 0 })],
        scheduled := [1], suspended := [2], timeouts := [(100, 2)], coro_id := 3 } := by
  have h := drain_expired_timeouts 2
    { coros := [(1, { state := .suspended, value := .obj 3, excpt := none,
                      timeout := some 1, callers := [], generator := 0 }),
                (2, { state := .suspended, value := .vnone, excpt := none,
                      timeout := some 100, callers := [], generator := 0 })],
      scheduled := [], suspended := [1, 2], timeouts := [(1, 1), (100, 2)],
      coro_id := 3 } (by norm_num)
  refine ⟨?_, ?_⟩
  · rw [h.1]
    norm_num [expiredBy]
  · rw [h.2.1]
    norm_num [expiredBy, List.takeWhile, List.dropWhile, drainEntry, alookup,
      aupdate, sdiscard, sadd]

/-! Set and association-list lemmas for the scheduler invariant. -/

lemma mem_sadd {x y : Nat} {s : List Nat} : x ∈ sadd y s ↔ x = y ∨ x ∈ s := by
  unfold sadd
  split <;> rename_i h
  · constructor
    · exact Or.inr
    · rintro (rfl | hx)
      exacts [h, hx]
  · simp [List.mem_cons]

lemma mem_sdiscard {x y : Nat} {s : List Nat} : x ∈ sdiscard y s ↔ x ∈ s ∧ x ≠ y := by
  simp [sdiscard]

lemma alookup_mem {β : Type} {k : Nat} {v : β} : ∀ {t : List (Nat × β)},
    alookup k t = some v → (k, v) ∈ t := by
  intro t
  induction t with
  | nil => intro h; simp [alookup] at h
  | cons p t ih =>
    obtain ⟨k1, v1⟩ := p
    intro h
    rw [alookup] at h
    by_cases hk : k1 = k
    · rw [if_pos hk] at h
      obtain rfl := Option.some_injective _ h
      subst hk
      exact List.mem_cons_self _ _
    · rw [if_neg hk] at h
      exact List.mem_cons_of_mem _ (ih h)

lemma aupdate_keys {β : Type} (k : Nat) (f : β → β) (t : List (Nat × β)) :
    (aupdate k f t).map Prod.fst = t.map Prod.fst := by
  induction t with
  | nil => rfl
  | cons p t ih =>
    simp only [aupdate, List.map_cons] at ih ⊢
    rw [ih]
    congr 1
    split <;> rfl

lemma mem_fst_of_mem_aupdate {β : Type} {p : Nat × β} {k : Nat} {f : β → β}
    {t : List (Nat × β)} (h : p ∈ aupdate k f t) : p.1 ∈ t.map Prod.fst := by
  have h2 : p.1 ∈ (aupdate k f t).map Prod.fst := List.mem_map_of_mem Prod.fst h
  rwa [aupdate_keys] at h2

lemma mem_aerase {β : Type} {p : Nat × β} {k : Nat} {t : List (Nat × β)} :
    p ∈ aerase k t ↔ p ∈ t ∧ p.1 ≠ k := by
  simp [aerase]

lemma aerase_keys_sublist {β : Type} (k : Nat) (t : List (Nat × β)) :
    ((aerase k t).map Prod.fst).Sublist (t.map Prod.fst) :=
  (List.filter_sublist t).map Prod.fst

lemma lt_of_key_mem {st : Sched} (h : SchedInv st) {cid : Nat}
    (hkey : cid ∈ st.coros.map Prod.fst) : cid < st.coro_id := by
  obtain ⟨q, hq, hqk⟩ := List.mem_map.mp hkey
  rw [← hqk]
  exact h.2.1 q hq

/-! Preservation of the invariant by each state-shape transition. -/

lemma schedinv_timeouts (st : Sched) (tos : List (ℚ × Nat)) (h : SchedInv st) :
    SchedInv { st with timeouts := tos } := h

lemma schedinv_update_only (st : Sched) (cid : Nat) (f : Coro → Coro)
    (tos : List (ℚ × Nat)) (h : SchedInv st) :
    SchedInv { coros := aupdate cid f st.coros, scheduled := st.scheduled,
               suspended := st.suspended, timeouts := tos, coro_id := st.coro_id } := by
  obtain ⟨⟨hdis, hpart⟩, hc, hs, hu, hnd⟩ := h
  refine ⟨⟨hdis, ?_⟩, ?_, hs, hu, ?_⟩
  · intro p hp
    obtain ⟨q, hq, hqk⟩ := List.mem_map.mp (mem_fst_of_mem_aupdate hp)
    have := hpart q hq
    rwa [hqk] at this
  · intro p hp
    obtain ⟨q, hq, hqk⟩ := List.mem_map.mp (mem_fst_of_mem_aupdate hp)
    have := hc q hq
    rwa [hqk] at this
  · show ((aupdate cid f st.coros).map Prod.fst).Nodup
    rw [aupdate_keys]
    exact hnd

lemma schedinv_move_ready (st : Sched) (cid : Nat) (f : Coro → Coro)
    (tos : List (ℚ × Nat)) (hkey : cid ∈ st.coros.map Prod.fst) (h : SchedInv st) :
    SchedInv { coros := aupdate cid f st.coros, scheduled := sadd cid st.scheduled,
               suspended := sdiscard cid st.suspended, timeouts := tos,
               coro_id := st.coro_id } := by
  have hcid : cid < st.coro_id := lt_of_key_mem h hkey
  obtain ⟨⟨hdis, hpart⟩, hc, hs, hu, hnd⟩ := h
  refine ⟨⟨?_, ?_⟩, ?_, ?_, ?_, ?_⟩
  · intro x hx hmem
    rw [mem_sdiscard] at hmem
    rcases mem_sadd.mp hx with rfl | hx2
    · exact hmem.2 rfl
    · exact (hdis x hx2) hmem.1
  · intro p hp
    obtain ⟨q, hq, hqk⟩ := List.mem_map.mp (mem_fst_of_mem_aupdate hp)
    by_cases hpc : p.1 = cid
    · refine Or.inl ⟨mem_sadd.mpr (Or.inl hpc), ?_⟩
      intro hmem
      exact (mem_sdiscard.mp hmem).2 hpc
    · have hpq := hpart q hq
      rw [hqk] at hpq
      rcases hpq with ⟨h1, h2⟩ | ⟨h1, h2⟩
      · exact Or.inl ⟨mem_sadd.mpr (Or.inr h1), fun hm => h2 (mem_sdiscard.mp hm).1⟩
      · refine Or.inr ⟨mem_sdiscard.mpr ⟨h1, hpc⟩, ?_⟩
        intro hm
        rcases mem_sadd.mp hm with he | he
        exacts [hpc he, h2 he]
  · intro p hp
    obtain ⟨q, hq, hqk⟩ := List.mem_map.mp (mem_fst_of_mem_aupdate hp)
    have := hc q hq
    rwa [hqk] at this
  · intro x hx
    rcases mem_sadd.mp hx with rfl | hx2
    exacts [hcid, hs x hx2]
  · intro x hx
    exact hu x (mem_sdiscard.mp hx).1
  · show ((aupdate cid f st.coros).map Prod.fst).Nodup
    rw [aupdate_keys]
    exact hnd

lemma schedinv_move_suspended (st : Sched) (cid : Nat) (f : Coro → Coro)
    (tos : List (ℚ × Nat)) (hkey : cid ∈ st.coros.map Prod.fst) (h : SchedInv st) :
    SchedInv { coros := aupdate cid f st.coros, scheduled := sdiscard cid st.scheduled,
               suspended := sadd cid st.suspended, timeouts := tos,
               coro_id := st.coro_id } := by
  have hcid : cid < st.coro_id := lt_of_key_mem h hkey
  obtain ⟨⟨hdis, hpart⟩, hc, hs, hu, hnd⟩ := h
  refine ⟨⟨?_, ?_⟩, ?_, ?_, ?_, ?_⟩
  · intro x hx hmem
    have hx2 := mem_sdiscard.mp hx
    rcases mem_sadd.mp hmem with he | he
    · exact hx2.2 he
    · exact (hdis x hx2.1) he
  · intro p hp
    obtain ⟨q, hq, hqk⟩ := List.mem_map.mp (mem_fst_of_mem_aupdate hp)
    by_cases hpc : p.1 = cid
    · refine Or.inr ⟨mem_sadd.mpr (Or.inl hpc), ?_⟩
      intro hmem
      exact (mem_sdiscard.mp hmem).2 hpc
    · have hpq := hpart q hq
      rw [hqk] at hpq
      rcases hpq with ⟨h1, h2⟩ | ⟨h1, h2⟩
      · refine Or.inl ⟨mem_sdiscard.mpr ⟨h1, hpc⟩, ?_⟩
        intro hm
        rcases mem_sadd.mp hm with he | he
        exacts [hpc he, h2 he]
      · exact Or.inr ⟨mem_sadd.mpr (Or.inr h1), fun hm => h2 (mem_sdiscard.mp hm).1⟩
  · intro p hp
    obtain ⟨q, hq, hqk⟩ := List.mem_map.mp (mem_fst_of_mem_aupdate hp)
    have := hc q hq
    rwa [hqk] at this
  · intro x hx
    exact hs x (mem_sdiscard.mp hx).1
  · intro x hx
    rcases mem_sadd.mp hx with rfl | hx2
    exacts [hcid, hu x hx2]
  · show ((aupdate cid f st.coros).map Prod.fst).Nodup
    rw [aupdate_keys]
    exact hnd

lemma schedinv_erase (st : Sched) (cid : Nat) (sch susp : List Nat)
    (hsch : sch = st.scheduled ∨ sch = sdiscard cid st.scheduled)
    (hsusp : susp = st.suspended ∨ susp = sdiscard cid st.suspended)
    (h : SchedInv st) :
    SchedInv { coros := aerase cid st.coros, scheduled := sch, suspended := susp,
               timeouts := st.timeouts, coro_id := st.coro_id } := by
  obtain ⟨⟨hdis, hpart⟩, hc, hs, hu, hnd⟩ := h
  have hschsub : ∀ x, x ∈ sch → x ∈ st.scheduled := by
    rcases hsch with rfl | rfl
    · exact fun x hx => hx
    · exact fun x hx => (mem_sdiscard.mp hx).1
  have hsuspsub : ∀ x, x ∈ susp → x ∈ st.suspended := by
    rcases hsusp with rfl | rfl
    · exact fun x hx => hx
    · exact fun x hx => (mem_sdiscard.mp hx).1
  have hschne : ∀ x, x ≠ cid → (x ∈ sch ↔ x ∈ st.scheduled) := by
    rcases hsch with rfl | rfl
    · exact fun x _ => Iff.rfl
    · intro x hx
      rw [mem_sdiscard]
      exact ⟨fun hm => hm.1, fun hm => ⟨hm, hx⟩⟩
  have hsuspne : ∀ x, x ≠ cid → (x ∈ susp ↔ x ∈ st.suspended) := by
    rcases hsusp with rfl | rfl
    · exact fun x _ => Iff.rfl
    · intro x hx
      rw [mem_sdiscard]
      exact ⟨fun hm => hm.1, fun hm => ⟨hm, hx⟩⟩
  refine ⟨⟨?_, ?_⟩, ?_, ?_, ?_, ?_⟩
  · intro x hx hmem
    exact (hdis x (hschsub x hx)) (hsuspsub x hmem)
  · intro p hp
    have hp2 := mem_aerase.mp hp
    have hpq := hpart p hp2.1
    rcases hpq with ⟨h1, h2⟩ | ⟨h1, h2⟩
    · exact Or.inl ⟨(hschne p.1 hp2.2).mpr h1, fun hm => h2 (hsuspsub _ hm)⟩
    · exact Or.inr ⟨(hsuspne p.1 hp2.2).mpr h1, fun hm => h2 (hschsub _ hm)⟩
  · intro p hp
    exact hc p (mem_aerase.mp hp).1
  · intro x hx
    exact hs x (hschsub x hx)
  · intro x hx
    exact hu x (hsuspsub x hx)
  · exact hnd.sublist (aerase_keys_sublist cid st.coros)

lemma schedinv_add (st : Sched) (c : Coro) (h : SchedInv st) :
    SchedInv (AsynCoro_add st c) := by
  obtain ⟨⟨hdis, hpart⟩, hc, hs, hu, hnd⟩ := h
  have hnotsusp : st.coro_id ∉ st.suspended := fun hm => absurd (hu _ hm) (lt_irrefl _)
  have hnotkey : st.coro_id ∉ st.coros.map Prod.fst := by
    intro hm
    obtain ⟨q, hq, hqk⟩ := List.mem_map.mp hm
    exact absurd (hqk ▸ hc q hq) (lt_irrefl _)
  refine ⟨⟨?_, ?_⟩, ?_, ?_, ?_, ?_⟩
  · intro x hx
    rcases mem_sadd.mp hx with rfl | hx2
    exacts [hnotsusp, hdis x hx2]
  · intro p hp
    rcases List.mem_cons.mp hp with rfl | hp2
    · exact Or.inl ⟨mem_sadd.mpr (Or.inl rfl), hnotsusp⟩
    · rcases hpart p hp2 with ⟨h1, h2⟩ | ⟨h1, h2⟩
      · exact Or.inl ⟨mem_sadd.mpr (Or.inr h1), h2⟩
      · refine Or.inr ⟨h1, ?_⟩
        intro hm
        rcases mem_sadd.mp hm with he | he
        · exact absurd (he ▸ hu _ h1) (lt_irrefl _)
        · exact h2 he
  · intro p hp
    rcases List.mem_cons.mp hp with rfl | hp2
    · exact Nat.lt_succ_self _
    · exact Nat.lt_succ_of_lt (hc p hp2)
  · intro x hx
    rcases mem_sadd.mp hx with rfl | hx2
    exacts [Nat.lt_succ_self _, Nat.lt_succ_of_lt (hs x hx2)]
  · intro x hx
    exact Nat.lt_succ_of_lt (hu x hx)
  · exact List.Nodup.cons hnotkey hnd

lemma schedinv_suspend (now : ℚ) (st : Sched) (cid : Nat) (topt : Option ℚ)
    (h : SchedInv st) : SchedInv (AsynCoro_suspend now st cid topt).2 := by
  unfold AsynCoro_suspend
  by_cases hv : validTimeout topt = false
  · rw [if_pos hv]; exact h
  · rw [if_neg hv]
    cases hl : alookup cid st.coros with
    | none => exact h
    | some coro =>
      dsimp only
      by_cases hrun : coro.state = .running
      · rw [if_neg (by simp [hrun])]
        have hkey : cid ∈ st.coros.map Prod.fst :=
          List.mem_map_of_mem Prod.fst (alookup_mem hl)
        cases topt with
        | none => exact schedinv_move_suspended st cid _ _ hkey h
        | some t => exact schedinv_move_suspended st cid _ _ hkey h
      · rw [if_pos (by simp [hrun])]
        exact h

lemma schedinv_resume (st : Sched) (cid : Nat) (v : Val) (h : SchedInv st) :
    SchedInv (AsynCoro_resume st cid v).2 := by
  unfold AsynCoro_resume
  cases hl : alookup cid st.coros with
  | none => exact h
  | some coro =>
    dsimp only
    by_cases hs : coro.state = .scheduled
    · rw [if_pos hs]
      cases he : coro.excpt with
      | none => exact h
      | some e =>
        dsimp only
        by_cases hne : e.1 ≠ ExcKind.generatorExit
        · rw [if_pos hne]
          exact schedinv_update_only st cid _ _ h
        · rw [if_neg hne]
          exact h
    · rw [if_neg hs]
      have hkey : cid ∈ st.coros.map Prod.fst :=
        List.mem_map_of_mem Prod.fst (alookup_mem hl)
      exact schedinv_move_ready st cid _ _ hkey h

lemma schedinv_throw (st : Sched) (cid : Nat) (e : Exc) (h : SchedInv st) :
    SchedInv (AsynCoro_throw st cid e).2 := by
  unfold AsynCoro_throw
  cases hl : alookup cid st.coros with
  | none => exact h
  | some coro =>
    dsimp only
    by_cases hrun : coro.state = .running
    · rw [if_pos hrun]; exact h
    · rw [if_neg hrun]
      have hkey : cid ∈ st.coros.map Prod.fst :=
        List.mem_map_of_mem Prod.fst (alookup_mem hl)
      by_cases hsusp : coro.state = .suspended
      · rw [if_pos hsusp, if_pos hsusp]
        exact schedinv_move_ready st cid _ _ hkey h
      · rw [if_neg hsusp, if_neg hsusp]
        exact schedinv_update_only st cid _ _ h

lemma schedinv_terminate (st : Sched) (cid : Nat) (h : SchedInv st) :
    SchedInv (AsynCoro_terminate_coro st cid).2 := by
  unfold AsynCoro_terminate_coro
  cases hl : alookup cid st.coros with
  | none => exact h
  | some coro =>
    dsimp only
    have hkey : cid ∈ st.coros.map Prod.fst :=
      List.mem_map_of_mem Prod.fst (alookup_mem hl)
    by_cases hsusp : coro.state = .suspended
    · rw [if_pos hsusp, if_pos hsusp]
      exact schedinv_move_ready st cid _ _ hkey h
    · rw [if_neg hsusp, if_neg hsusp]
      exact schedinv_update_only st cid _ _ h

lemma schedinv_applyApi (st : Sched) (op : ApiOp) (h : SchedInv st) :
    SchedInv (applyApi st op) := by
  cases op with
  | add c => exact schedinv_add st c h
  | suspendOp now cid t => exact schedinv_suspend now st cid t h
  | resumeOp cid v => exact schedinv_resume st cid v h
  | throwOp cid e => exact schedinv_throw st cid e h
  | terminate cid => exact schedinv_terminate st cid h

lemma schedinv_foldl_api : ∀ (calls : List ApiOp) (st : Sched), SchedInv st →
    SchedInv (calls.foldl applyApi st) := by
  intro calls
  induction calls with
  | nil => exact fun st h => h
  | cons op calls ih =>
    intro st h
    exact ih _ (schedinv_applyApi st op h)

lemma schedinv_drainEntry (st : Sched) (t : ℚ) (cid : Nat) (h : SchedInv st) :
    SchedInv (drainEntry st t cid) := by
  unfold drainEntry
  cases hl : alookup cid st.coros with
  | none => exact h
  | some coro =>
    dsimp only
    by_cases hto : coro.timeout ≠ some t
    · rw [if_pos hto]; exact h
    · rw [if_neg hto]
      by_cases hst : coro.state ≠ CoroState.suspended
      · rw [if_pos hst]; exact h
      · rw [if_neg hst]
        have hkey : cid ∈ st.coros.map Prod.fst :=
          List.mem_map_of_mem Prod.fst (alookup_mem hl)
        exact schedinv_move_ready st cid _ _ hkey h

lemma schedinv_drainLoop (now1 : ℚ) : ∀ (l : List (ℚ × Nat)) (st : Sched),
    SchedInv st → SchedInv (drainLoop now1 l st) := by
  intro l
  induction l with
  | nil => exact fun st h => schedinv_timeouts st [] h
  | cons e rest ih =>
    intro st h
    obtain ⟨t, cid⟩ := e
    rw [drainLoop]
    by_cases hle : t ≤ now1
    · rw [if_pos hle]
      exact ih _ (schedinv_drainEntry st t cid h)
    · rw [if_neg hle]
      exact schedinv_timeouts st _ h

lemma schedinv_postExcept (st : Sched) (cid : Nat) (exc : Option Exc)
    (h : SchedInv st) : SchedInv (postExcept st cid exc) := by
  unfold postExcept
  cases hl : alookup cid st.coros with
  | none => exact h
  | some coro =>
    dsimp only
    cases hlast : coro.callers.getLast? with
    | some frame => exact schedinv_update_only st cid _ _ h
    | none =>
      dsimp only
      by_cases hsusp : coro.state = .suspended
      · rw [if_pos hsusp, if_pos hsusp]
        exact schedinv_erase st cid _ _ (Or.inl rfl) (Or.inr rfl) h
      · rw [if_neg hsusp, if_neg hsusp]
        exact schedinv_erase st cid _ _ (Or.inr rfl) (Or.inl rfl) h

lemma schedinv_runStep (st : Sched) (cid : Nat) (calls : List ApiOp)
    (res : GenResult) (h : SchedInv st) : SchedInv (runStep st cid calls res) := by
  unfold runStep
  cases hl : alookup cid st.coros with
  | none => exact h
  | some coro =>
    dsimp only
    by_cases hsch : coro.state ≠ CoroState.scheduled
    · rw [if_pos hsch]; exact h
    · rw [if_neg hsch]
      have h1 : SchedInv { st with
          coros := aupdate cid
            (fun c => { c with state := .running, excpt := none }) st.coros } :=
        schedinv_update_only st cid _ st.timeouts h
      have h2 := schedinv_foldl_api calls _ h1
      cases res with
      | stopped => exact schedinv_postExcept _ cid none h2
      | raised e => exact schedinv_postExcept _ cid (some e) h2
      | ret v =>
        dsimp only
        set st2 := calls.foldl applyApi { st with
          coros := aupdate cid
            (fun c => { c with state := .running, excpt := none }) st.coros } with hst2
        have h3 : SchedInv (match alookup cid st2.coros with
            | none => st2
            | some c2 =>
              if c2.state = .running then
                { st2 with
                    coros := aupdate cid
                      (fun c => { c with state := .scheduled, value := v }) st2.coros }
              else st2) := by
          cases hl2 : alookup cid st2.coros with
          | none => exact h2
          | some c2 =>
            dsimp only
            by_cases hr : c2.state = .running
            · rw [if_pos hr]
              exact schedinv_update_only st2 cid _ _ h2
            · rw [if_neg hr]
              exact h2
        cases v with
        | vnone => exact h3
        | obj n => exact h3
        | gen g => exact schedinv_update_only _ cid _ _ h3

lemma schedinv_applySched (st : Sched) (op : SchedOp) (h : SchedInv st) :
    SchedInv (applySched st op) := by
  cases op with
  | api op => exact schedinv_applyApi st op h
  | drain now => exact schedinv_drainLoop (now + 1 / 1000) st.timeouts st h
  | step cid calls res => exact schedinv_runStep st cid calls res h

/-- C8: every scheduler operation (adding a coroutine, suspend, resume,
throw, terminate, the timer-drain step and each per-coroutine step of the
scheduling loop), and hence every sequence of them, preserves the
invariant that the ready and suspended sets are disjoint and every id in
the coroutine table belongs to exactly one of the two (a Running
coroutine staying in the ready set during its step), together with the
id-freshness well-formedness this induction needs. -/
theorem scheduler_sets_invariant (ops : List SchedOp) (st : Sched)
    (h : SchedInv st) : SchedInv (ops.foldl applySched st) := by
  induction ops generalizing st with
  | nil => exact h
  | cons op ops ih => exact ih _ (schedinv_applySched st op h)

/-- Witness for scheduler_sets_invariant: from a two-coroutine state, run
a suspend of the running coroutine, a throw into it, a drain, a resume,
a terminate, a fresh add and one full scheduling step that ends the
generator. -/
theorem scheduler_sets_invariant_witness :
    SchedInv
      { coros := [(1, { state := .running, value := .vnone, excpt := none,
                        timeout := none, callers := [], generator := 0 }),
                  (2, { state := .suspended, value := .vnone, excpt := none,
                        timeout := some 3, callers := [], generator := 1 })],
        scheduled := [1], suspended := [2], timeouts := [(3, 2)], coro_id := 3 } ∧
    SchedInv (List.foldl applySched
      { coros := [(1, { state := .running, value := .vnone, excpt := none,
                        timeout := none, callers := [], generator := 0 }),
                  (2, { state := .suspended, value := .vnone, excpt := none,
                        timeout := some 3, callers := [], generator := 1 })],
        scheduled := [1], suspended := [2], timeouts := [(3, 2)], coro_id := 3 }
      [.api (.suspendOp 1 1 (some 2)), .api (.throwOp 2 (.sockTimeout, 0)),
       .drain 3, .api (.resumeOp 1 (.obj 5)), .api (.terminate 2),
       .api (.add { state := .scheduled, value := .vnone, excpt := none,
                    timeout := none, callers := [], generator := 7 }),
       .step 2 [] .stopped]) :=
  ⟨by decide,
   scheduler_sets_invariant
     [.api (.suspendOp 1 1 (some 2)), .api (.throwOp 2 (.sockTimeout, 0)),
      .drain 3, .api (.resumeOp 1 (.obj 5)), .api (.terminate 2),
      .api (.add { state := .scheduled, value := .vnone, excpt := none,
                   timeout := none, callers := [], generator := 7 }),
      .step 2 [] .stopped]
     { coros := [(1, { state := .running, value := .vnone, excpt := none,
                       timeout := none, callers := [], generator := 0 }),
                 (2, { state := .suspended, value := .vnone, excpt := none,
                       timeout := some 3, callers := [], generator := 1 })],
       scheduled := [1], suspended := [2], timeouts := [(3, 2)], coro_id := 3 }
     (by decide)⟩

/-! Condition-variable theorems. -/

/-- C9: wait() called by the owning coroutine with the notified flag set
clears the flag, keeps that coroutine as owner, returns False and leaves
the scheduler untouched (no suspension); with the flag clear it clears
the owner, appends the caller to the tail of the wait queue, returns True
and suspends the caller (moving it, when Running, from the ready set to
the suspended set); notify() sets the flag and, exactly when the wait
queue is non-empty, pops the head coroutine and resumes it with value
None (moving it, when Suspended, to the ready set with value None). -/
theorem condition_wait_notify (cv : CoroCondition) (st : Sched) (cid : Nat) :
    (cv.owner = some cid → cv.notified = true →
      CoroCondition.wait cv st cid =
        .ok (false, { cv with notified := false, owner := some cid }, st)) ∧
    ((cv.owner = none ∨ cv.owner = some cid) → cv.notified = false →
      CoroCondition.wait cv st cid =
        .ok (true, { cv with owner := none, waitlist := cv.waitlist ++ [cid] },
            (AsynCoro_suspend 0 st cid none).2) ∧
      (∀ coro : Coro, alookup cid st.coros = some coro → coro.state = .running →
        (AsynCoro_suspend 0 st cid none).2 =
          { st with
              scheduled := sdiscard cid st.scheduled,
              suspended := sadd cid st.suspended,
              coros := aupdate cid (fun c => { c with state := .suspended, timeout := none }) st.coros })) ∧
    (cv.owner = some cid →
      (cv.waitlist = [] →
        CoroCondition.notify cv st cid = .ok ({ cv with notified := true }, st)) ∧
      (∀ w rest, cv.waitlist = w :: rest →
        CoroCondition.notify cv st cid =
          .ok ({ cv with notified := true, waitlist := rest },
              (AsynCoro_resume st w .vnone).2) ∧
        (∀ cw : Coro, alookup w st.coros = some cw → cw.state = .suspended →
          (AsynCoro_resume st w .vnone).2 =
            { st with
                coros := aupdate w (fun c => { c with timeout := none, value := .vnone, state := .scheduled }) st.coros,
                suspended := sdiscard w st.suspended,
                scheduled := sadd w st.scheduled }))) := by
  refine ⟨fun how hn => ?_, fun how hn => ⟨?_, fun coro hl hrun => ?_⟩,
          fun how => ⟨fun hwl => ?_, fun w rest hwl => ⟨?_, fun cw hl hsusp => ?_⟩⟩⟩
  · unfold CoroCondition.wait
    rw [if_neg (by simp [how]), if_pos hn]
  · unfold CoroCondition.wait
    rcases how with how | how
    · rw [if_neg (by simp [how]), hn]
      simp
    · rw [if_neg (by simp [how]), hn]
      simp
  · unfold AsynCoro_suspend
    rw [if_neg (by simp [validTimeout]), hl]
    dsimp only
    rw [if_neg (by simp [hrun])]
  · unfold CoroCondition.notify
    rw [if_neg (by simp [how]), hwl]
  · unfold CoroCondition.notify
    rw [if_neg (by simp [how]), hwl]
  · unfold AsynCoro_resume
    rw [hl]
    dsimp only
    rw [if_neg (by simp [hsusp])]

/-- Witness for condition_wait_notify: coroutine 1 owns the variable.
With the flag set, wait returns False keeping ownership and scheduler;
notify on a queue holding coroutine 2 (Suspended) pops it and moves it to
the ready set with value None. -/
theorem condition_wait_notify_witness :
    CoroCondition.wait { waitlist := [], owner := some 1, notified := true }
      { coros := [(1, { state := .running, value := .vnone, excpt := none,
                        timeout := none, callers := [], generator := 0 })],
        scheduled := [1], suspended := [], timeouts := [], coro_id := 2 } 1 =
      .ok (false, { waitlist := [], owner := some 1, notified := false },
          { coros := [(1, { state := .running, value := .vnone, excpt := none,
                            timeout := none, callers := [], generator := 0 })],
            scheduled := [1], suspended := [], timeouts := [], coro_id := 2 }) ∧
    CoroCondition.notify { waitlist := [2], owner := some 1, notified := false }
      { coros := [(1, { state := .running, value := .vnone, excpt := none,
                        timeout := none, callers := [], generator := 0 }),
                  (2, { state := .suspended, value := .vnone, excpt := none,
                        timeout := none, callers := [], generator := 1 })],
        scheduled := [1], suspended := [2], timeouts := [], coro_id := 3 } 1 =
      .ok ({ waitlist := [], owner := some 1, notified := true },
          { coros := [(1, { state := .running, value := .vnone, excpt := none,
                            timeout := none, callers := [], generator := 0 }),
                      (2, { state := .scheduled, value := .vnone, excpt := none,
                            timeout := none, callers := [], generator := 1 })],
            scheduled := [2, 1], suspended := [], timeouts := [], coro_id := 3 }) := by
  constructor
  · exact (condition_wait_notify { waitlist := [], owner := some 1, notified := true }
      { coros := [(1, { state := .running, value := .vnone, excpt := none,
                        timeout := none, callers := [], generator := 0 })],
        scheduled := [1], suspended := [], timeouts := [], coro_id := 2 } 1).1 rfl rfl
  · have h := (((condition_wait_notify
      { waitlist := [2], owner := some 1, notified := false }
      { coros := [(1, { state := .running, value := .vnone, excpt := none,
                        timeout := none, callers := [], generator := 0 }),
                  (2, { state := .suspended, value := .vnone, excpt := none,
                        timeout := none, callers := [], generator := 1 })],
        scheduled := [1], suspended := [2], timeouts := [], coro_id := 3 } 1).2.2
      rfl).2 2 [] rfl).1
    rw [h]
    rfl

/-! Socket rewrap theorem. -/

lemma alookup_aupdate_self {β : Type} (k : Nat) (f : β → β) :
    ∀ t : List (Nat × β), alookup k (aupdate k f t) = (alookup k t).map f := by
  intro t
  induction t with
  | nil => rfl
  | cons p t ih =>
    obtain ⟨k1, v1⟩ := p
    by_cases hk : k1 = k
    · subst hk
      show alookup k1 (List.map (fun p => if p.1 = k1 then (p.1, f p.2) else p) ((k1, v1) :: t)) =
        Option.map f (alookup k1 ((k1, v1) :: t))
      rw [List.map_cons]
      dsimp only
      rw [if_pos rfl, alookup, alookup, if_pos rfl, if_pos rfl]
      rfl
    · simp only [aupdate, List.map_cons] at ih ⊢
      rw [if_neg hk]
      show alookup k ((k1, v1) :: List.map _ t) = _
      rw [alookup, alookup, if_neg hk, if_neg hk]
      exact ih

/-- C10: constructing an AsynCoroSocket from a socket that is already an
AsynCoroSocket aliases the existing wrapper's attribute dict (same
reference), allocates no fresh state and issues no notifier registration
(heap, dict table and registration table unchanged), so a mutation
performed through either reference is visible through the other. -/
theorem rewrap_shares_state (h : SockHeap) (r : Nat) (b : Bool) :
    sockInit h (.wrapped r) b = (r, h) ∧
    (sockInit h (.wrapped r) b).2.regs = h.regs ∧
    (sockInit h (.wrapped r) b).2.dicts = h.dicts ∧
    (∀ (h2 : SockHeap) (v : Option Nat) (d : SockDict),
      alookup r h2.dicts = some d →
      getTask (setTask h2 (sockInit h (.wrapped r) b).1 v) r = some v) := by
  refine ⟨rfl, rfl, rfl, ?_⟩
  intro h2 v d hd
  show getTask (setTask h2 r v) r = some v
  unfold getTask setTask
  dsimp only
  rw [alookup_aupdate_self, hd]
  rfl

/-- Witness for rewrap_shares_state on a one-dict heap: rewrapping
reference 0 returns reference 0 with the heap unchanged, and a task
written through the rewrapped reference is read back through the original
one. -/
theorem rewrap_shares_state_witness :
    sockInit
      { dicts := [(0, { fileno := 9, keyfile := none, certfile := none,
                        result := none, timeout := 0, timeout_id := none,
                        coro := none, task := none, blocking := false,
                        hasNotifier := true })],
        nextRef := 1, regs := [9] } (.wrapped 0) false =
      (0, { dicts := [(0, { fileno := 9, keyfile := none, certfile := none,
                            result := none, timeout := 0, timeout_id := none,
                            coro := none, task := none, blocking := false,
                            hasNotifier := true })],
            nextRef := 1, regs := [9] }) ∧
    getTask
      (setTask
        { dicts := [(0, { fileno := 9, keyfile := none, certfile := none,
                          result := none, timeout := 0, timeout_id := none,
                          coro := none, task := none, blocking := false,
                          hasNotifier := true })],
          nextRef := 1, regs := [9] } 0 (some 4)) 0 = some (some 4) := by
  have h := rewrap_shares_state
    { dicts := [(0, { fileno := 9, keyfile := none, certfile := none,
                      result := none, timeout := 0, timeout_id := none,
                      coro := none, task := none, blocking := false,
                      hasNotifier := true })],
      nextRef := 1, regs := [9] } 0 false
  exact ⟨h.1, h.2.2.2 _ (some 4) _ rfl⟩

end Asyncoro
